import Mathlib

/-!
Verification development for the `vreis/pytorch-lightning` snapshot, which
contains two source files:

* `tests/metrics/classification/test_auroc.py` — a test suite comparing the
  framework's AUROC classification metric (class-based and functional) against
  `sklearn.metrics.roc_auc_score` through a family of reshape adapters;
* `pl_examples/domain_templates/computer_vision_fine_tuning.py` — a transfer
  learning example with a milestone-based fine-tuning callback.

Tensors are modelled as (nested) lists over `ℚ` (predictions / scores) and
`ℕ` (integer class targets).  The reshape / transpose operations used by the
test adapters are embedded with row-major index semantics, matching the
semantics of the corresponding torch / numpy operations on the rectangular
tensors the tests build.
-/

namespace PLAuroc

/-- Pairwise comparison score of the Mann–Whitney formulation of ROC-AUC:
a positive-scored sample `p` against a negative-scored sample `n` scores
`1` when ranked strictly higher, `1/2` on a tie, `0` otherwise. -/
def pairScore (p n : ℚ) : ℚ :=
  if n < p then 1 else if p = n then 1/2 else 0

/-- Modelled from the spec: the area under the ROC curve for a binary
problem, the mathematical quantity that both the framework's AUROC metric
and the reference library's `roc_auc_score` compute on binary data.  Input
is a list of (score, is-positive) samples; computed via the Mann–Whitney
statistic over positive/negative pairs.  Degenerate inputs (no positive or
no negative samples) yield `0`. -/
def binaryAuc (l : List (ℚ × Bool)) : ℚ :=
  let pos := (l.filter (fun s => s.2)).map Prod.fst
  let neg := (l.filter (fun s => !s.2)).map Prod.fst
  if pos.length = 0 ∨ neg.length = 0 then 0
  else (pos.map (fun p => (neg.map (fun n => pairScore p n)).sum)).sum
        / ((pos.length : ℚ) * (neg.length : ℚ))

/-- The value of `binaryAuc` only depends on the multiset of samples. -/
theorem binaryAuc_perm {l l' : List (ℚ × Bool)} (h : l.Perm l') :
    binaryAuc l = binaryAuc l' := by
  have hpos : ((l.filter (fun s => s.2)).map Prod.fst).Perm
      ((l'.filter (fun s => s.2)).map Prod.fst) := (h.filter _).map _
  have hneg : ((l.filter (fun s => !s.2)).map Prod.fst).Perm
      ((l'.filter (fun s => !s.2)).map Prod.fst) := (h.filter _).map _
  unfold binaryAuc
  simp only [hpos.length_eq, hneg.length_eq]
  have hsum : ∀ p : ℚ,
      (((l.filter (fun s => !s.2)).map Prod.fst).map (fun n => pairScore p n)).sum
      = (((l'.filter (fun s => !s.2)).map Prod.fst).map (fun n => pairScore p n)).sum :=
    fun p => (hneg.map _).sum_eq
  have houter :
      (((l.filter (fun s => s.2)).map Prod.fst).map
        (fun p => (((l.filter (fun s => !s.2)).map Prod.fst).map
          (fun n => pairScore p n)).sum)).sum
      = (((l'.filter (fun s => s.2)).map Prod.fst).map
        (fun p => (((l'.filter (fun s => !s.2)).map Prod.fst).map
          (fun n => pairScore p n)).sum)).sum := by
    have hmapeq :
        (((l.filter (fun s => s.2)).map Prod.fst).map
          (fun p => (((l.filter (fun s => !s.2)).map Prod.fst).map
            (fun n => pairScore p n)).sum))
        = (((l.filter (fun s => s.2)).map Prod.fst).map
          (fun p => (((l'.filter (fun s => !s.2)).map Prod.fst).map
            (fun n => pairScore p n)).sum)) := by
      exact List.map_congr_left (fun p _ => hsum p)
    rw [hmapeq]
    exact (hpos.map _).sum_eq
  rw [houter]

/-! ### Tensor operations

Rectangular tensors are nested lists.  The torch / numpy operations used by
the sklearn adapters in `test_auroc.py` are embedded with their row-major
index semantics. -/

/-- Semantics of `Tensor.transpose(0, 1)` on a rectangular tensor given as a
list of rows: column `j` of the input becomes row `j` of the output.  `d` is
the `getD` default, never reached on rectangular inputs. -/
def transpose01 {α : Type} (d : α) (m : List (List α)) : List (List α) :=
  (List.range (m.headD []).length).map (fun j => m.map (fun row => row.getD j d))

/-- Row-major semantics of reshaping a flat buffer into consecutive rows of
length `C` (as in `reshape(-1, C)`). -/
def reshapeRows {α : Type} (C : ℕ) (flat : List α) : List (List α) :=
  (List.range (flat.length / C)).map (fun i => (flat.drop (i * C)).take C)

/-- Semantics of `Tensor.reshape(-1, C)` on a 2-D tensor: flatten row-major,
then regroup into rows of length `C`. -/
def reshapeNegOne {α : Type} (C : ℕ) (m : List (List α)) : List (List α) :=
  reshapeRows C m.flatten

/-- Semantics of `Tensor.reshape(C, -1)` on a 3-D tensor: flatten row-major,
then regroup into `C` rows of length `size / C`. -/
def reshapeFirst {α : Type} (C : ℕ) (y : List (List (List α))) : List (List α) :=
  let flat := (y.map List.flatten).flatten
  reshapeRows (flat.length / C) flat

theorem map_getD_range {α : Type} (d : α) (l : List α) :
    (List.range l.length).map (fun j => l.getD j d) = l := by
  induction l with
  | nil => rfl
  | cons a t ih =>
    simp only [List.length_cons, List.range_succ_eq_map, List.map_cons, List.map_map,
      Function.comp_def, List.getD_cons_zero, List.getD_cons_succ]
    rw [ih]

theorem reshapeRows_flatten {α : Type} {C : ℕ} (hC : 0 < C) :
    ∀ (m : List (List α)), (∀ r ∈ m, r.length = C) → reshapeRows C m.flatten = m := by
  intro m
  induction m with
  | nil => intro _; simp [reshapeRows]
  | cons r t ih =>
    intro h
    have hr : r.length = C := h r (List.mem_cons_self _ _)
    have ht : ∀ x ∈ t, x.length = C := fun x hx => h x (List.mem_cons_of_mem _ hx)
    have hlen : (r ++ t.flatten).length = t.flatten.length + C := by
      simp [hr, Nat.add_comm]
    unfold reshapeRows
    rw [List.flatten_cons, hlen, Nat.add_div_right _ hC, List.range_succ_eq_map,
      List.map_cons, List.map_map]
    have h0 : ((r ++ t.flatten).drop (0 * C)).take C = r := by
      simp only [Nat.zero_mul, List.drop_zero]
      rw [← hr, List.take_left]
    rw [h0]
    have hstep : ∀ i : ℕ,
        ((r ++ t.flatten).drop (Nat.succ i * C)).take C
          = (t.flatten.drop (i * C)).take C := by
      intro i
      have : Nat.succ i * C = r.length + i * C := by
        rw [hr, Nat.succ_mul, Nat.add_comm]
      rw [this, List.drop_append]
    have hmap :
        (List.range (t.flatten.length / C)).map
            ((fun i => ((r ++ t.flatten).drop (i * C)).take C) ∘ Nat.succ)
          = (List.range (t.flatten.length / C)).map
            (fun i => (t.flatten.drop (i * C)).take C) :=
      List.map_congr_left (fun i _ => hstep i)
    rw [hmap]
    have := ih ht
    unfold reshapeRows at this
    rw [this]

theorem zipWith_congr_mem {α β γ : Type} (f g : α → β → γ) :
    ∀ (A : List α) (B : List β), (∀ a ∈ A, ∀ b ∈ B, f a b = g a b) →
      List.zipWith f A B = List.zipWith g A B := by
  intro A
  induction A with
  | nil => intro B _; simp
  | cons a A ih =>
    intro B h
    cases B with
    | nil => simp
    | cons b B =>
      simp only [List.zipWith_cons_cons]
      rw [h a (List.mem_cons_self _ _) b (List.mem_cons_self _ _),
        ih B (fun x hx y hy =>
          h x (List.mem_cons_of_mem _ hx) y (List.mem_cons_of_mem _ hy))]

theorem zipWith_fst_eq_map {α β γ : Type} (h : α → γ) :
    ∀ (A : List α) (B : List β), A.length = B.length →
      List.zipWith (fun a _ => h a) A B = A.map h := by
  intro A
  induction A with
  | nil => intro B _; simp
  | cons a A ih =>
    intro B hl
    cases B with
    | nil => simp at hl
    | cons b B =>
      simp only [List.zipWith_cons_cons, List.map_cons]
      rw [ih B (by simpa using hl)]

theorem zipWith_snd_eq_map {α β γ : Type} (h : β → γ) :
    ∀ (A : List α) (B : List β), A.length = B.length →
      List.zipWith (fun _ b => h b) A B = B.map h := by
  intro A
  induction A with
  | nil =>
    intro B hl
    cases B with
    | nil => simp
    | cons b B => simp at hl
  | cons a A ih =>
    intro B hl
    cases B with
    | nil => simp at hl
    | cons b B =>
      simp only [List.zipWith_cons_cons, List.map_cons]
      rw [ih B (by simpa using hl)]

theorem zipWith_map_range_left {α β γ : Type} (d : α) (k : α → β → γ) (g : ℕ → β) :
    ∀ (p : List α),
      List.zipWith k p ((List.range p.length).map g)
        = (List.range p.length).map (fun j => k (p.getD j d) (g j)) := by
  intro p
  induction p generalizing g with
  | nil => simp
  | cons a p ih =>
    simp only [List.length_cons, List.range_succ_eq_map, List.map_cons, List.map_map,
      List.zipWith_cons_cons, Function.comp_def, List.getD_cons_zero, List.getD_cons_succ]
    rw [ih]

theorem length_transpose01 {α : Type} (d : α) (m : List (List α)) :
    (transpose01 d m).length = (m.headD []).length := by
  simp [transpose01]

/-- Transposing a columnwise (horizontal) concatenation of two rectangular
matrices yields the vertical concatenation of the transposes. -/
theorem transpose01_zipWith_append {α : Type} (d : α) (D : ℕ) :
    ∀ (A B : List (List α)), A.length = B.length → (∀ r ∈ A, r.length = D) →
      transpose01 d (List.zipWith (· ++ ·) A B) = transpose01 d A ++ transpose01 d B := by
  intro A B hAB hA
  cases A with
  | nil =>
    cases B with
    | nil => simp [transpose01]
    | cons b B => simp at hAB
  | cons a A' =>
    cases B with
    | nil => simp at hAB
    | cons b B' =>
      have ha : a.length = D := hA a (List.mem_cons_self _ _)
      unfold transpose01
      simp only [List.zipWith_cons_cons, List.headD_cons, List.length_append, ha]
      rw [List.range_add, List.map_append, List.map_map]
      congr 1
      · apply List.map_congr_left
        intro j hj
        have hjD : j < D := List.mem_range.mp hj
        simp only [List.map_cons, List.map_zipWith]
        have hz : List.zipWith (fun x y => (x ++ y).getD j d) A' B'
            = List.zipWith (fun x _ => x.getD j d) A' B' := by
          apply zipWith_congr_mem
          intro x hx _ _
          exact List.getD_append x _ d j (by rw [hA x (List.mem_cons_of_mem _ hx)]; exact hjD)
        rw [List.getD_append a b d j (by rw [ha]; exact hjD), hz,
          zipWith_fst_eq_map _ A' B' (by simpa using hAB)]
      · apply List.map_congr_left
        intro j _
        simp only [Function.comp_def, List.map_cons, List.map_zipWith]
        have hz : List.zipWith (fun x y => (x ++ y).getD (D + j) d) A' B'
            = List.zipWith (fun _ y => y.getD j d) A' B' := by
          apply zipWith_congr_mem
          intro x hx y _
          rw [List.getD_append_right x y d (D + j)
            (by rw [hA x (List.mem_cons_of_mem _ hx)]; exact Nat.le_add_right _ _)]
          congr 1
          rw [hA x (List.mem_cons_of_mem _ hx)]
          omega
        rw [List.getD_append_right a b d (D + j) (by rw [ha]; exact Nat.le_add_right _ _),
          ha, Nat.add_sub_cancel_left, hz,
          zipWith_snd_eq_map _ A' B' (by simpa using hAB)]

theorem mapflatten_transpose01_single {α : Type} (p : List (List α)) :
    (transpose01 ([] : List α) [p]).map List.flatten = p := by
  unfold transpose01
  simp only [List.headD_cons, List.map_cons, List.map_nil, List.map_map,
    Function.comp_def, List.flatten_cons, List.flatten_nil, List.append_nil]
  exact map_getD_range _ _

theorem mapflatten_transpose01_cons {α : Type} (p q : List (List α))
    (t : List (List (List α))) (hpq : q.length = p.length) :
    (transpose01 ([] : List α) (p :: q :: t)).map List.flatten
      = List.zipWith (· ++ ·) p ((transpose01 ([] : List α) (q :: t)).map List.flatten) := by
  unfold transpose01
  simp only [List.headD_cons, List.map_map, hpq]
  rw [zipWith_map_range_left ([] : List α)]
  apply List.map_congr_left
  intro j _
  simp [Function.comp_def]

/-- The key commutation behind the multidimensional adapters in
`test_auroc.py`: transposing the class dimension to the front, flattening the
remaining dimensions per class, and transposing back produces exactly the
per-sample flattening of the extra dimension. -/
theorem transpose01_reshape_comm {α : Type} (d : α) (C D : ℕ) :
    ∀ (x : List (List (List α))), (∀ s ∈ x, s.length = C) →
      (∀ s ∈ x, ∀ r ∈ s, r.length = D) →
      transpose01 d ((transpose01 ([] : List α) x).map List.flatten)
        = (x.map (transpose01 d)).flatten := by
  intro x
  induction x with
  | nil => intro _ _; simp [transpose01]
  | cons p x ih =>
    intro hC hD
    cases x with
    | nil =>
      rw [mapflatten_transpose01_single]
      simp
    | cons q t =>
      have hpq : q.length = p.length := by
        rw [hC q (by simp), hC p (by simp)]
      rw [mapflatten_transpose01_cons p q t hpq]
      have hY : ((transpose01 ([] : List α) (q :: t)).map List.flatten).length = p.length := by
        rw [List.length_map, length_transpose01]
        simpa using hpq
      rw [transpose01_zipWith_append d D p _ hY.symm
        (fun r hr => hD p (List.mem_cons_self _ _) r hr)]
      rw [ih (fun s hs => hC s (List.mem_cons_of_mem _ hs))
        (fun s hs => hD s (List.mem_cons_of_mem _ hs))]
      simp

/-- Reshaping with `reshape(-1, C)` is the identity on a rectangular 2-D tensor whose rows
already have length `C`. -/
theorem reshapeNegOne_eq {α : Type} {C : ℕ} (hC : 0 < C) (m : List (List α))
    (h : ∀ r ∈ m, r.length = C) : reshapeNegOne C m = m :=
  reshapeRows_flatten hC m h

/-- Reshaping with `reshape(C, -1)` is row-flattening on a rectangular 3-D tensor with `C`
outer rows. -/
theorem reshapeFirst_eq {α : Type} {C L : ℕ} (hL : 0 < L)
    (y : List (List (List α))) (hy : y.length = C)
    (hrow : ∀ r ∈ y.map List.flatten, r.length = L) :
    reshapeFirst C y = y.map List.flatten := by
  cases y with
  | nil => simp [reshapeFirst, reshapeRows]
  | cons s t =>
    have hC0 : 0 < C := by
      rw [← hy]
      simp
    unfold reshapeFirst
    have hlen : ((s :: t).map List.flatten).flatten.length = C * L := by
      rw [List.length_flatten]
      have : ((s :: t).map List.flatten).map List.length = List.replicate C L := by
        rw [List.eq_replicate_iff]
        refine ⟨by simp [← hy], ?_⟩
        intro b hb
        obtain ⟨r, hr, hrb⟩ := List.mem_map.mp hb
        rw [← hrb]
        exact hrow r hr
      rw [this, List.sum_replicate, smul_eq_mul]
    show reshapeRows (((s :: t).map List.flatten).flatten.length / C) _ = _
    rw [hlen, Nat.mul_div_cancel_left _ hC0]
    exact reshapeRows_flatten hL _ hrow

/-! ### Partial AUC (the `max_fpr` argument)

Modelled from the spec: when `max_fpr` is given, both the framework metric
and the reference compute the McClish-standardized area under the ROC curve
restricted to false-positive rates below `max_fpr`. -/

/-- Distinct decision thresholds, in descending order. -/
def thresholdsDesc (l : List (ℚ × Bool)) : List ℚ :=
  List.insertionSort (fun a b : ℚ => b ≤ a) ((l.map Prod.fst).dedup)

/-- The ROC curve of the sample list: for each threshold, the
(false-positive rate, true-positive rate) of the classifier that predicts
positive at scores at or above the threshold; prefixed by `(0, 0)`. -/
def rocPoints (l : List (ℚ × Bool)) : List (ℚ × ℚ) :=
  let P : ℚ := (l.countP (fun s => s.2) : ℕ)
  let N : ℚ := (l.countP (fun s => !s.2) : ℕ)
  (0, 0) :: (thresholdsDesc l).map (fun t =>
    (((l.countP (fun s => decide (t ≤ s.1) && !s.2) : ℕ) : ℚ) / N,
     ((l.countP (fun s => decide (t ≤ s.1) && s.2) : ℕ) : ℚ) / P))

/-- Trapezoidal area contributed by one ROC segment, clipped at
false-positive rate `f` with linear interpolation. -/
def segArea (f : ℚ) (p q : ℚ × ℚ) : ℚ :=
  if q.1 ≤ f then (q.1 - p.1) * (p.2 + q.2) / 2
  else if p.1 < f then
    (f - p.1) * (p.2 + (p.2 + (q.2 - p.2) * (f - p.1) / (q.1 - p.1))) / 2
  else 0

/-- Area under the ROC curve up to false-positive rate `f`
(trapezoidal rule with interpolation at the cut). -/
def partialAuc (f : ℚ) (l : List (ℚ × Bool)) : ℚ :=
  (((rocPoints l).zip (rocPoints l).tail).map (fun pq => segArea f pq.1 pq.2)).sum

/-- McClish standardization of the partial AUC, as the reference library
performs for `max_fpr`. -/
def standardizedPartialAuc (f : ℚ) (l : List (ℚ × Bool)) : ℚ :=
  1/2 * (1 + (partialAuc f l - 1/2 * f ^ 2) / (f - 1/2 * f ^ 2))

theorem thresholdsDesc_perm {l l' : List (ℚ × Bool)} (h : l.Perm l') :
    thresholdsDesc l = thresholdsDesc l' := by
  haveI : IsAntisymm ℚ (fun a b : ℚ => b ≤ a) := ⟨fun a b h1 h2 => le_antisymm h2 h1⟩
  haveI : IsTotal ℚ (fun a b : ℚ => b ≤ a) := ⟨fun a b => le_total b a⟩
  haveI : IsTrans ℚ (fun a b : ℚ => b ≤ a) := ⟨fun _ _ _ h1 h2 => le_trans h2 h1⟩
  apply List.eq_of_perm_of_sorted (r := fun a b : ℚ => b ≤ a)
  · exact (List.perm_insertionSort _ _).trans
      (((h.map Prod.fst).dedup).trans (List.perm_insertionSort _ _).symm)
  · exact List.sorted_insertionSort _ _
  · exact List.sorted_insertionSort _ _

theorem rocPoints_perm {l l' : List (ℚ × Bool)} (h : l.Perm l') :
    rocPoints l = rocPoints l' := by
  unfold rocPoints
  rw [thresholdsDesc_perm h, h.countP_eq, h.countP_eq]
  apply congrArg
  apply List.map_congr_left
  intro t _
  rw [h.countP_eq, h.countP_eq]

theorem standardizedPartialAuc_perm (f : ℚ) {l l' : List (ℚ × Bool)}
    (h : l.Perm l') : standardizedPartialAuc f l = standardizedPartialAuc f l' := by
  unfold standardizedPartialAuc partialAuc
  rw [rocPoints_perm h]

/-! ### Averaging and one-vs-rest multiclass / multilabel AUROC -/

/-- The `average` argument exercised by the tests: 'macro' or 'weighted'. -/
inductive Average : Type where
  | macroAvg : Average
  | weighted : Average
deriving DecidableEq

/-- Combine per-class AUC scores: unweighted mean for 'macro', support
weighted mean for 'weighted'. -/
def averageScores (avg : Average) (aucs : List ℚ) (supports : List ℚ) : ℚ :=
  match avg with
  | .macroAvg => aucs.sum / (aucs.length : ℚ)
  | .weighted => ((aucs.zip supports).map (fun x => x.1 * x.2)).sum / supports.sum

/-- One-vs-rest binary problem of class `c`: the `c`-th score column against
the indicator of the target being `c`. -/
def ovrColumn (c : ℕ) (rows : List (List ℚ)) (target : List ℕ) : List (ℚ × Bool) :=
  (rows.zip target).map (fun rt => (rt.1.getD c 0, rt.2 == c))

/-- Per-class number of samples of that class. -/
def multiclassSupports (numClasses : ℕ) (target : List ℕ) : List ℚ :=
  (List.range numClasses).map (fun c => ((target.countP (fun t => t == c) : ℕ) : ℚ))

/-- Modelled from the spec: one-vs-rest multiclass area under the ROC curve
with 'macro' or 'weighted' averaging, the quantity computed both by the
framework metric and by the reference `roc_auc_score(..., multi_class='ovr')`. -/
def multiclassAucOvr (numClasses : ℕ) (avg : Average)
    (rows : List (List ℚ)) (target : List ℕ) : ℚ :=
  averageScores avg
    ((List.range numClasses).map (fun c => binaryAuc (ovrColumn c rows target)))
    (multiclassSupports numClasses target)

/-- Per-label binary problem of label `c` of a multilabel task. -/
def mlColumn (c : ℕ) (rows : List (List ℚ)) (target : List (List ℕ)) : List (ℚ × Bool) :=
  (rows.zip target).map (fun rt => (rt.1.getD c 0, rt.2.getD c 0 == 1))

/-- Per-label number of positive samples. -/
def multilabelSupports (numClasses : ℕ) (target : List (List ℕ)) : List ℚ :=
  (List.range numClasses).map (fun c => ((target.countP (fun r => r.getD c 0 == 1) : ℕ) : ℚ))

/-- Modelled from the spec: multilabel area under the ROC curve with 'macro'
or 'weighted' averaging over the labels, the quantity computed both by the
framework metric and by the reference `roc_auc_score` on multilabel data. -/
def multilabelAuc (numClasses : ℕ) (avg : Average)
    (rows : List (List ℚ)) (target : List (List ℕ)) : ℚ :=
  averageScores avg
    ((List.range numClasses).map (fun c => binaryAuc (mlColumn c rows target)))
    (multilabelSupports numClasses target)

/-- Pair binary scores with their boolean targets (positive label `1`). -/
def binPair (preds : List ℚ) (target : List ℕ) : List (ℚ × Bool) :=
  (preds.zip target).map (fun pt => (pt.1, pt.2 == 1))

/-! ### Framework functional metric (`pytorch_lightning.metrics.functional.auroc`)

The implementation is not part of this snapshot; the following definitions
are modelled from the spec, one per data mode exercised by the tests. -/

/-- Modelled from the spec: the framework's functional `auroc` on
binary-mode inputs (1-D probabilities, 1-D binary targets); with `max_fpr`
set it computes the standardized partial AUC. -/
def auroc_binary (maxFpr : Option ℚ) (preds : List ℚ) (target : List ℕ) : ℚ :=
  match maxFpr with
  | none => binaryAuc (binPair preds target)
  | some f => standardizedPartialAuc f (binPair preds target)

/-- Modelled from the spec: the framework's functional `auroc` on multiclass
inputs (2-D probabilities, 1-D integer targets), one-vs-rest averaged. -/
def auroc_multiclass (numClasses : ℕ) (avg : Average)
    (preds : List (List ℚ)) (target : List ℕ) : ℚ :=
  multiclassAucOvr numClasses avg preds target

/-- Modelled from the spec: the framework's functional `auroc` on
multidimensional multiclass inputs (`N × C × D` probabilities, `N × D`
targets): every extra-dimension position of every sample is treated as a
sample of the `C`-class problem. -/
def auroc_multidim_multiclass (numClasses : ℕ) (avg : Average)
    (preds : List (List (List ℚ))) (target : List (List ℕ)) : ℚ :=
  multiclassAucOvr numClasses avg
    ((preds.map (transpose01 (0 : ℚ))).flatten) target.flatten

/-- Modelled from the spec: the framework's functional `auroc` on multilabel
inputs (2-D probabilities, 2-D binary targets). -/
def auroc_multilabel (numClasses : ℕ) (avg : Average)
    (preds : List (List ℚ)) (target : List (List ℕ)) : ℚ :=
  multilabelAuc numClasses avg preds target

/-- Modelled from the spec: the framework's functional `auroc` on
multidimensional multilabel inputs (`N × C × D` probabilities and `N × C × D`
binary targets): every extra-dimension position of every sample is treated
as a sample of the `C`-label problem. -/
def auroc_multilabel_multidim (numClasses : ℕ) (avg : Average)
    (preds : List (List (List ℚ))) (target : List (List (List ℕ))) : ℚ :=
  multilabelAuc numClasses avg
    ((preds.map (transpose01 (0 : ℚ))).flatten)
    ((target.map (transpose01 (0 : ℕ))).flatten)

/-! ### Reference library (`sklearn.metrics.roc_auc_score`)

Also external to this snapshot; modelled from the spec, one entry point per
input shape the adapters produce. -/

/-- Modelled from the spec: `sklearn.metrics.roc_auc_score` on 1-D binary
data; `average` is accepted but irrelevant in the binary case; `max_fpr`
selects the standardized partial AUC. -/
def sk_roc_auc_score_binary (average : Average) (maxFpr : Option ℚ)
    (yTrue : List ℕ) (yScore : List ℚ) : ℚ :=
  let _ := average
  match maxFpr with
  | none => binaryAuc (binPair yScore yTrue)
  | some f => standardizedPartialAuc f (binPair yScore yTrue)

/-- Modelled from the spec: `sklearn.metrics.roc_auc_score` with
`multi_class='ovr'` on 2-D scores and 1-D integer targets.  The tests only
exercise `max_fpr=None` here (other values are skipped). -/
def sk_roc_auc_score_multiclass (average : Average) (numClasses : ℕ)
    (yTrue : List ℕ) (yScore : List (List ℚ)) : ℚ :=
  multiclassAucOvr numClasses average yScore yTrue

/-- Modelled from the spec: `sklearn.metrics.roc_auc_score` on 2-D scores
and 2-D binary indicator targets (multilabel).  The tests only exercise
`max_fpr=None` here. -/
def sk_roc_auc_score_multilabel (average : Average) (numClasses : ℕ)
    (yTrue : List (List ℕ)) (yScore : List (List ℚ)) : ℚ :=
  multilabelAuc numClasses average yScore yTrue

/-! ### The sklearn adapters of `test_auroc.py`

Embedded from the source.  `view(-1)` on an already 1-D tensor is the
identity and is embedded as such; on higher-dimensional tensors it is
row-major flattening. -/

/-- Embeds `_binary_prob_sk_metric` (test_auroc.py lines 22–25):
`preds.view(-1)` and `target.view(-1)` on the 1-D binary tensors, then
`roc_auc_score`. -/
def binary_prob_sk_metric (preds : List ℚ) (target : List ℕ)
    (average : Average) (maxFpr : Option ℚ) : ℚ :=
  sk_roc_auc_score_binary average maxFpr target preds

/-- Embeds `_multiclass_prob_sk_metric` (lines 28–37):
`preds.reshape(-1, num_classes)`, `target.view(-1)`, then `roc_auc_score`
with `multi_class='ovr'`. -/
def multiclass_prob_sk_metric (preds : List (List ℚ)) (target : List ℕ)
    (numClasses : ℕ) (average : Average) : ℚ :=
  sk_roc_auc_score_multiclass average numClasses target (reshapeNegOne numClasses preds)

/-- Embeds `_multidim_multiclass_prob_sk_metric` (lines 40–49):
`preds.transpose(0, 1).reshape(num_classes, -1).transpose(0, 1)`,
`target.view(-1)`, then `roc_auc_score` with `multi_class='ovr'`. -/
def multidim_multiclass_prob_sk_metric (preds : List (List (List ℚ)))
    (target : List (List ℕ)) (numClasses : ℕ) (average : Average) : ℚ :=
  sk_roc_auc_score_multiclass average numClasses target.flatten
    (transpose01 (0 : ℚ) (reshapeFirst numClasses (transpose01 ([] : List ℚ) preds)))

/-- Embeds `_multilabel_prob_sk_metric` (lines 52–61):
`preds.reshape(-1, num_classes)`, `target.reshape(-1, num_classes)`, then
`roc_auc_score`. -/
def multilabel_prob_sk_metric (preds : List (List ℚ)) (target : List (List ℕ))
    (numClasses : ℕ) (average : Average) : ℚ :=
  sk_roc_auc_score_multilabel average numClasses
    (reshapeNegOne numClasses target) (reshapeNegOne numClasses preds)

/-- Embeds `_multilabel_multidim_prob_sk_metric` (lines 64–73): the
`transpose(0, 1).reshape(num_classes, -1).transpose(0, 1)` chain applied to
both `preds` and `target`, then `roc_auc_score`. -/
def multilabel_multidim_prob_sk_metric (preds : List (List (List ℚ)))
    (target : List (List (List ℕ))) (numClasses : ℕ) (average : Average) : ℚ :=
  sk_roc_auc_score_multilabel average numClasses
    (transpose01 (0 : ℕ) (reshapeFirst numClasses (transpose01 ([] : List ℕ) target)))
    (transpose01 (0 : ℚ) (reshapeFirst numClasses (transpose01 ([] : List ℚ) preds)))

/-! ### Functional metric vs. sklearn adapter, per input family -/

theorem transposeRows_length {α : Type} (C D : ℕ) (x : List (List (List α)))
    (hC : ∀ s ∈ x, s.length = C) (hD : ∀ s ∈ x, ∀ r ∈ s, r.length = D) :
    ∀ r ∈ (transpose01 ([] : List α) x).map List.flatten,
      r.length = x.length * D := by
  intro r hr
  obtain ⟨row, hrow, hflat⟩ := List.mem_map.mp hr
  unfold transpose01 at hrow
  obtain ⟨j, hj, hjr⟩ := List.mem_map.mp hrow
  have hjC : j < (x.headD []).length := List.mem_range.mp hj
  subst hjr
  subst hflat
  rw [List.length_flatten]
  have hmap : (x.map (fun row => row.getD j ([] : List α))).map List.length
      = List.replicate x.length D := by
    rw [List.eq_replicate_iff]
    refine ⟨by simp, ?_⟩
    intro b hb
    obtain ⟨s, hs, hsb⟩ := List.mem_map.mp hb
    obtain ⟨s', hs', hsb'⟩ := List.mem_map.mp hs
    subst hsb
    subst hsb'
    have hjlt : j < s'.length := by
      cases x with
      | nil => cases hs'
      | cons s0 t =>
        have h0 : (s0 :: t).headD [] = s0 := rfl
        rw [h0] at hjC
        rw [hC s' hs', ← hC s0 (List.mem_cons_self _ _)]
        exact hjC
    rw [List.getD_eq_getElem _ _ hjlt]
    exact hD s' hs' _ (List.getElem_mem hjlt)
  rw [hmap, List.sum_replicate, smul_eq_mul]

/-- The full transpose-reshape-transpose adapter chain equals the per-sample
flattening the framework performs, on rectangular `N × C × D` tensors. -/
theorem adapter_chain_eq_flatten {α : Type} (d : α) (C D : ℕ)
    (x : List (List (List α))) (hne : x ≠ [])
    (hD0 : 0 < D)
    (hC : ∀ s ∈ x, s.length = C) (hD : ∀ s ∈ x, ∀ r ∈ s, r.length = D) :
    transpose01 d (reshapeFirst C (transpose01 ([] : List α) x))
      = (x.map (transpose01 d)).flatten := by
  have hy : (transpose01 ([] : List α) x).length = C := by
    rw [length_transpose01]
    cases x with
    | nil => exact absurd rfl hne
    | cons s t =>
      have h0 : (s :: t).headD [] = s := rfl
      rw [h0]
      exact hC s (List.mem_cons_self _ _)
  have hL : 0 < x.length * D :=
    Nat.mul_pos (List.length_pos.mpr hne) hD0
  rw [reshapeFirst_eq hL _ hy (transposeRows_length C D x hC hD)]
  exact transpose01_reshape_comm d C D x hC hD

/-- Binary family: the functional metric agrees with the
`_binary_prob_sk_metric` adapter (for which `view(-1)` is the identity). -/
theorem auroc_binary_eq_sk (avg : Average) (maxFpr : Option ℚ)
    (preds : List ℚ) (target : List ℕ) :
    auroc_binary maxFpr preds target
      = binary_prob_sk_metric preds target avg maxFpr := rfl

/-- Multiclass family: `reshape(-1, C)` is the identity on the `N × C`
probabilities, so the functional metric agrees with
`_multiclass_prob_sk_metric`. -/
theorem auroc_multiclass_eq_sk (C : ℕ) (avg : Average)
    (preds : List (List ℚ)) (target : List ℕ)
    (hC : 0 < C) (hrect : ∀ r ∈ preds, r.length = C) :
    auroc_multiclass C avg preds target
      = multiclass_prob_sk_metric preds target C avg := by
  unfold auroc_multiclass multiclass_prob_sk_metric sk_roc_auc_score_multiclass
  rw [reshapeNegOne_eq hC preds hrect]

/-- Multidim multiclass family: the adapter's
`transpose(0,1).reshape(C,-1).transpose(0,1)` chain equals the framework's
per-sample flattening. -/
theorem auroc_multidim_multiclass_eq_sk (C D : ℕ) (avg : Average)
    (preds : List (List (List ℚ))) (target : List (List ℕ))
    (hne : preds ≠ []) (hD0 : 0 < D)
    (hC : ∀ s ∈ preds, s.length = C)
    (hD : ∀ s ∈ preds, ∀ r ∈ s, r.length = D) :
    auroc_multidim_multiclass C avg preds target
      = multidim_multiclass_prob_sk_metric preds target C avg := by
  unfold auroc_multidim_multiclass multidim_multiclass_prob_sk_metric
    sk_roc_auc_score_multiclass
  rw [adapter_chain_eq_flatten (0 : ℚ) C D preds hne hD0 hC hD]

/-- Multilabel family: `reshape(-1, C)` is the identity on both tensors. -/
theorem auroc_multilabel_eq_sk (C : ℕ) (avg : Average)
    (preds : List (List ℚ)) (target : List (List ℕ))
    (hC : 0 < C) (hp : ∀ r ∈ preds, r.length = C)
    (ht : ∀ r ∈ target, r.length = C) :
    auroc_multilabel C avg preds target
      = multilabel_prob_sk_metric preds target C avg := by
  unfold auroc_multilabel multilabel_prob_sk_metric sk_roc_auc_score_multilabel
  rw [reshapeNegOne_eq hC preds hp, reshapeNegOne_eq hC target ht]

/-- Multilabel multidim family: the transpose-reshape-transpose chain on both
tensors equals the framework's per-sample flattening of both. -/
theorem auroc_multilabel_multidim_eq_sk (C D : ℕ) (avg : Average)
    (preds : List (List (List ℚ))) (target : List (List (List ℕ)))
    (hpne : preds ≠ []) (htne : target ≠ []) (hD0 : 0 < D)
    (hpC : ∀ s ∈ preds, s.length = C)
    (hpD : ∀ s ∈ preds, ∀ r ∈ s, r.length = D)
    (htC : ∀ s ∈ target, s.length = C)
    (htD : ∀ s ∈ target, ∀ r ∈ s, r.length = D) :
    auroc_multilabel_multidim C avg preds target
      = multilabel_multidim_prob_sk_metric preds target C avg := by
  unfold auroc_multilabel_multidim multilabel_multidim_prob_sk_metric
    sk_roc_auc_score_multilabel
  rw [adapter_chain_eq_flatten (0 : ℚ) C D preds hpne hD0 hpC hpD,
    adapter_chain_eq_flatten (0 : ℕ) C D target htne hD0 htC htD]

/-! ### Permutation invariance of the functional metrics

Distributed gathering in the class-based test reorders the accumulated
samples; all metrics only depend on the multiset of (score, target) samples. -/

theorem auroc_binary_perm (maxFpr : Option ℚ) {p p' : List ℚ} {t t' : List ℕ}
    (h : (p.zip t).Perm (p'.zip t')) :
    auroc_binary maxFpr p t = auroc_binary maxFpr p' t' := by
  have hb : (binPair p t).Perm (binPair p' t') := h.map _
  cases maxFpr with
  | none => exact binaryAuc_perm hb
  | some f => exact standardizedPartialAuc_perm f hb

theorem multiclassAucOvr_perm (C : ℕ) (avg : Average)
    {rows rows' : List (List ℚ)} {tg tg' : List ℕ}
    (hzip : (rows.zip tg).Perm (rows'.zip tg')) (htg : tg.Perm tg') :
    multiclassAucOvr C avg rows tg = multiclassAucOvr C avg rows' tg' := by
  unfold multiclassAucOvr multiclassSupports
  have haucs : (List.range C).map (fun c => binaryAuc (ovrColumn c rows tg))
      = (List.range C).map (fun c => binaryAuc (ovrColumn c rows' tg')) :=
    List.map_congr_left (fun c _ => binaryAuc_perm (hzip.map _))
  have hsup : (List.range C).map (fun c => ((tg.countP (fun t => t == c) : ℕ) : ℚ))
      = (List.range C).map (fun c => ((tg'.countP (fun t => t == c) : ℕ) : ℚ)) :=
    List.map_congr_left (fun c _ => by rw [htg.countP_eq])
  rw [haucs, hsup]

theorem multilabelAuc_perm (C : ℕ) (avg : Average)
    {rows rows' : List (List ℚ)} {tg tg' : List (List ℕ)}
    (hzip : (rows.zip tg).Perm (rows'.zip tg')) (htg : tg.Perm tg') :
    multilabelAuc C avg rows tg = multilabelAuc C avg rows' tg' := by
  unfold multilabelAuc multilabelSupports
  have haucs : (List.range C).map (fun c => binaryAuc (mlColumn c rows tg))
      = (List.range C).map (fun c => binaryAuc (mlColumn c rows' tg')) :=
    List.map_congr_left (fun c _ => binaryAuc_perm (hzip.map _))
  have hsup : (List.range C).map (fun c => ((tg.countP (fun r => r.getD c 0 == 1) : ℕ) : ℚ))
      = (List.range C).map (fun c => ((tg'.countP (fun r => r.getD c 0 == 1) : ℕ) : ℚ)) :=
    List.map_congr_left (fun c _ => by rw [htg.countP_eq])
  rw [haucs, hsup]

/-- Zipping two flattenings along the sample dimension equals flattening the
per-sample zips, provided corresponding samples have matching lengths. -/
theorem zip_flatten_eq {α β : Type} :
    ∀ (P : List (List α)) (T : List (List β)), P.length = T.length →
      (∀ pr ∈ P.zip T, pr.1.length = pr.2.length) →
      P.flatten.zip T.flatten = ((P.zip T).map (fun pr => pr.1.zip pr.2)).flatten := by
  intro P
  induction P with
  | nil =>
    intro T hl _
    cases T with
    | nil => simp
    | cons t T => simp at hl
  | cons p P ih =>
    intro T hl h
    cases T with
    | nil => simp at hl
    | cons t T =>
      simp only [List.flatten_cons, List.zip_cons_cons, List.map_cons]
      rw [List.zip_append (h (p, t) (by simp))]
      rw [ih T (by simpa using hl)
        (fun pr hpr => h pr (List.mem_cons_of_mem _ hpr))]

/-! ### Class-based AUROC metric

Modelled from the spec: the class-based `AUROC` metric accumulates the
`preds` and `target` of every `update` call and, on `compute`, evaluates the
functional metric on the concatenation of everything accumulated (after
distributed synchronisation, which may reorder the samples). -/

/-- Class-based metric on binary inputs: accumulated updates, then the
functional metric on the concatenation. -/
def classAUROC_binary (maxFpr : Option ℚ)
    (updates : List (List ℚ × List ℕ)) : ℚ :=
  auroc_binary maxFpr ((updates.map Prod.fst).flatten) ((updates.map Prod.snd).flatten)

/-- Class-based metric on multiclass inputs. -/
def classAUROC_multiclass (C : ℕ) (avg : Average)
    (updates : List (List (List ℚ) × List ℕ)) : ℚ :=
  auroc_multiclass C avg ((updates.map Prod.fst).flatten) ((updates.map Prod.snd).flatten)

/-- Class-based metric on multidimensional multiclass inputs. -/
def classAUROC_multidim_multiclass (C : ℕ) (avg : Average)
    (updates : List (List (List (List ℚ)) × List (List ℕ))) : ℚ :=
  auroc_multidim_multiclass C avg
    ((updates.map Prod.fst).flatten) ((updates.map Prod.snd).flatten)

/-- Class-based metric on multilabel inputs. -/
def classAUROC_multilabel (C : ℕ) (avg : Average)
    (updates : List (List (List ℚ) × List (List ℕ))) : ℚ :=
  auroc_multilabel C avg ((updates.map Prod.fst).flatten) ((updates.map Prod.snd).flatten)

/-- Class-based metric on multidimensional multilabel inputs. -/
def classAUROC_multilabel_multidim (C : ℕ) (avg : Average)
    (updates : List (List (List (List ℚ)) × List (List (List ℕ)))) : ℚ :=
  auroc_multilabel_multidim C avg
    ((updates.map Prod.fst).flatten) ((updates.map Prod.snd).flatten)

theorem classAUROC_binary_eq_sk (avg : Average) (maxFpr : Option ℚ)
    (updates : List (List ℚ × List ℕ)) (preds : List ℚ) (target : List ℕ)
    (h : (((updates.map Prod.fst).flatten).zip
        ((updates.map Prod.snd).flatten)).Perm (preds.zip target)) :
    classAUROC_binary maxFpr updates
      = binary_prob_sk_metric preds target avg maxFpr := by
  unfold classAUROC_binary
  rw [auroc_binary_perm maxFpr h]
  exact auroc_binary_eq_sk avg maxFpr preds target

theorem classAUROC_multiclass_eq_sk (C : ℕ) (avg : Average)
    (updates : List (List (List ℚ) × List ℕ))
    (preds : List (List ℚ)) (target : List ℕ)
    (hC : 0 < C) (hrect : ∀ r ∈ preds, r.length = C)
    (hlen1 : ((updates.map Prod.fst).flatten).length
      = ((updates.map Prod.snd).flatten).length)
    (hlen2 : preds.length = target.length)
    (hzip : (((updates.map Prod.fst).flatten).zip
        ((updates.map Prod.snd).flatten)).Perm (preds.zip target)) :
    classAUROC_multiclass C avg updates
      = multiclass_prob_sk_metric preds target C avg := by
  have e1 := List.map_snd_zip ((updates.map Prod.fst).flatten)
    ((updates.map Prod.snd).flatten) (le_of_eq hlen1.symm)
  have e2 := List.map_snd_zip preds target (le_of_eq hlen2.symm)
  have htg : ((updates.map Prod.snd).flatten).Perm target := by
    rw [← e1, ← e2]
    exact hzip.map Prod.snd
  unfold classAUROC_multiclass auroc_multiclass
  rw [multiclassAucOvr_perm C avg hzip htg]
  exact auroc_multiclass_eq_sk C avg preds target hC hrect

theorem classAUROC_multilabel_eq_sk (C : ℕ) (avg : Average)
    (updates : List (List (List ℚ) × List (List ℕ)))
    (preds : List (List ℚ)) (target : List (List ℕ))
    (hC : 0 < C) (hp : ∀ r ∈ preds, r.length = C) (ht : ∀ r ∈ target, r.length = C)
    (hlen1 : ((updates.map Prod.fst).flatten).length
      = ((updates.map Prod.snd).flatten).length)
    (hlen2 : preds.length = target.length)
    (hzip : (((updates.map Prod.fst).flatten).zip
        ((updates.map Prod.snd).flatten)).Perm (preds.zip target)) :
    classAUROC_multilabel C avg updates
      = multilabel_prob_sk_metric preds target C avg := by
  have e1 := List.map_snd_zip ((updates.map Prod.fst).flatten)
    ((updates.map Prod.snd).flatten) (le_of_eq hlen1.symm)
  have e2 := List.map_snd_zip preds target (le_of_eq hlen2.symm)
  have htg : ((updates.map Prod.snd).flatten).Perm target := by
    rw [← e1, ← e2]
    exact hzip.map Prod.snd
  unfold classAUROC_multilabel auroc_multilabel
  rw [multilabelAuc_perm C avg hzip htg]
  exact auroc_multilabel_eq_sk C avg preds target hC hp ht

theorem zip_pairs_map_left {α γ δ : Type} (f : α → List γ) (A : List α) (B : List (List δ)) :
    ((A.map f).zip B).map (fun pr => pr.1.zip pr.2)
      = (A.zip B).map (fun st => (f st.1).zip st.2) := by
  rw [List.zip_map_left, List.map_map]
  apply List.map_congr_left
  intro st _
  cases st
  rfl

theorem zip_pairs_map_both {α β γ δ : Type} (f : α → List γ) (g : β → List δ)
    (A : List α) (B : List β) :
    ((A.map f).zip (B.map g)).map (fun pr => pr.1.zip pr.2)
      = (A.zip B).map (fun st => (f st.1).zip (g st.2)) := by
  rw [List.zip_map, List.map_map]
  apply List.map_congr_left
  intro st _
  cases st
  rfl

theorem classAUROC_multidim_multiclass_eq_sk (C D : ℕ) (avg : Average)
    (updates : List (List (List (List ℚ)) × List (List ℕ)))
    (preds : List (List (List ℚ))) (target : List (List ℕ))
    (hne : preds ≠ []) (hC0 : 0 < C) (hD0 : 0 < D)
    (hC : ∀ s ∈ preds, s.length = C)
    (hD : ∀ s ∈ preds, ∀ r ∈ s, r.length = D)
    (htD : ∀ t ∈ target, t.length = D)
    (hlen1 : ((updates.map Prod.fst).flatten).length
      = ((updates.map Prod.snd).flatten).length)
    (hlen2 : preds.length = target.length)
    (hzip : (((updates.map Prod.fst).flatten).zip
        ((updates.map Prod.snd).flatten)).Perm (preds.zip target)) :
    classAUROC_multidim_multiclass C avg updates
      = multidim_multiclass_prob_sk_metric preds target C avg := by
  have hsamplen : ∀ pr ∈ preds.zip target,
      (transpose01 (0 : ℚ) pr.1).length = pr.2.length := by
    intro pr hpr
    obtain ⟨hs, ht⟩ := List.of_mem_zip hpr
    rw [length_transpose01, htD pr.2 ht]
    cases hval : pr.1 with
    | nil =>
      exfalso
      have := hC pr.1 hs
      rw [hval] at this
      simp at this
      omega
    | cons r s' =>
      have h0 : (r :: s').headD [] = r := rfl
      rw [h0]
      exact hD pr.1 hs r (by rw [hval]; exact List.mem_cons_self _ _)
  have e1 := List.map_snd_zip ((updates.map Prod.fst).flatten)
    ((updates.map Prod.snd).flatten) (le_of_eq hlen1.symm)
  have e2 := List.map_snd_zip preds target (le_of_eq hlen2.symm)
  have htg : ((updates.map Prod.snd).flatten).Perm target := by
    rw [← e1, ← e2]
    exact hzip.map Prod.snd
  have hmemL : ∀ q ∈ (((updates.map Prod.fst).flatten).map (transpose01 (0 : ℚ))).zip
      ((updates.map Prod.snd).flatten), q.1.length = q.2.length := by
    intro q hq
    rw [List.zip_map_left] at hq
    obtain ⟨st, hst, hstq⟩ := List.mem_map.mp hq
    subst hstq
    exact hsamplen st (hzip.mem_iff.mp hst)
  have hmemR : ∀ q ∈ ((preds.map (transpose01 (0 : ℚ))).zip target),
      q.1.length = q.2.length := by
    intro q hq
    rw [List.zip_map_left] at hq
    obtain ⟨st, hst, hstq⟩ := List.mem_map.mp hq
    subst hstq
    exact hsamplen st hst
  have eqL := zip_flatten_eq (((updates.map Prod.fst).flatten).map (transpose01 (0 : ℚ)))
    ((updates.map Prod.snd).flatten) (by rw [List.length_map]; exact hlen1) hmemL
  have eqR := zip_flatten_eq ((preds.map (transpose01 (0 : ℚ)))) target
    (by rw [List.length_map]; exact hlen2) hmemR
  have hzipFlat :
      (((((updates.map Prod.fst).flatten).map (transpose01 (0 : ℚ))).flatten).zip
        (((updates.map Prod.snd).flatten).flatten)).Perm
      ((((preds.map (transpose01 (0 : ℚ))).flatten)).zip (target.flatten)) := by
    rw [eqL, eqR, zip_pairs_map_left, zip_pairs_map_left]
    exact (hzip.map _).flatten
  have htgFlat : (((updates.map Prod.snd).flatten).flatten).Perm target.flatten :=
    htg.flatten
  unfold classAUROC_multidim_multiclass auroc_multidim_multiclass
  rw [multiclassAucOvr_perm C avg hzipFlat htgFlat]
  have := auroc_multidim_multiclass_eq_sk C D avg preds target hne hD0 hC hD
  unfold auroc_multidim_multiclass at this
  exact this

theorem classAUROC_multilabel_multidim_eq_sk (C D : ℕ) (avg : Average)
    (updates : List (List (List (List ℚ)) × List (List (List ℕ))))
    (preds : List (List (List ℚ))) (target : List (List (List ℕ)))
    (hpne : preds ≠ []) (htne : target ≠ []) (hC0 : 0 < C) (hD0 : 0 < D)
    (hpC : ∀ s ∈ preds, s.length = C)
    (hpD : ∀ s ∈ preds, ∀ r ∈ s, r.length = D)
    (htC : ∀ s ∈ target, s.length = C)
    (htD : ∀ s ∈ target, ∀ r ∈ s, r.length = D)
    (hlen1 : ((updates.map Prod.fst).flatten).length
      = ((updates.map Prod.snd).flatten).length)
    (hlen2 : preds.length = target.length)
    (hzip : (((updates.map Prod.fst).flatten).zip
        ((updates.map Prod.snd).flatten)).Perm (preds.zip target)) :
    classAUROC_multilabel_multidim C avg updates
      = multilabel_multidim_prob_sk_metric preds target C avg := by
  have hsamplen : ∀ pr ∈ preds.zip target,
      (transpose01 (0 : ℚ) pr.1).length = (transpose01 (0 : ℕ) pr.2).length := by
    intro pr hpr
    obtain ⟨hs, ht⟩ := List.of_mem_zip hpr
    rw [length_transpose01, length_transpose01]
    have h1 : (pr.1.headD []).length = D := by
      cases hval : pr.1 with
      | nil =>
        exfalso
        have := hpC pr.1 hs
        rw [hval] at this
        simp at this
        omega
      | cons r s' =>
        have h0 : (r :: s').headD [] = r := rfl
        rw [h0]
        exact hpD pr.1 hs r (by rw [hval]; exact List.mem_cons_self _ _)
    have h2 : (pr.2.headD []).length = D := by
      cases hval : pr.2 with
      | nil =>
        exfalso
        have := htC pr.2 ht
        rw [hval] at this
        simp at this
        omega
      | cons r s' =>
        have h0 : (r :: s').headD [] = r := rfl
        rw [h0]
        exact htD pr.2 ht r (by rw [hval]; exact List.mem_cons_self _ _)
    rw [h1, h2]
  have e1 := List.map_snd_zip ((updates.map Prod.fst).flatten)
    ((updates.map Prod.snd).flatten) (le_of_eq hlen1.symm)
  have e2 := List.map_snd_zip preds target (le_of_eq hlen2.symm)
  have htg : ((updates.map Prod.snd).flatten).Perm target := by
    rw [← e1, ← e2]
    exact hzip.map Prod.snd
  have hmemL : ∀ q ∈ (((updates.map Prod.fst).flatten).map (transpose01 (0 : ℚ))).zip
      (((updates.map Prod.snd).flatten).map (transpose01 (0 : ℕ))),
      q.1.length = q.2.length := by
    intro q hq
    rw [List.zip_map] at hq
    obtain ⟨st, hst, hstq⟩ := List.mem_map.mp hq
    subst hstq
    exact hsamplen st (hzip.mem_iff.mp hst)
  have hmemR : ∀ q ∈ ((preds.map (transpose01 (0 : ℚ))).zip
      (target.map (transpose01 (0 : ℕ)))), q.1.length = q.2.length := by
    intro q hq
    rw [List.zip_map] at hq
    obtain ⟨st, hst, hstq⟩ := List.mem_map.mp hq
    subst hstq
    exact hsamplen st hst
  have eqL := zip_flatten_eq
    (((updates.map Prod.fst).flatten).map (transpose01 (0 : ℚ)))
    (((updates.map Prod.snd).flatten).map (transpose01 (0 : ℕ)))
    (by rw [List.length_map, List.length_map]; exact hlen1) hmemL
  have eqR := zip_flatten_eq ((preds.map (transpose01 (0 : ℚ))))
    (target.map (transpose01 (0 : ℕ)))
    (by rw [List.length_map, List.length_map]; exact hlen2) hmemR
  have hzipFlat :
      (((((updates.map Prod.fst).flatten).map (transpose01 (0 : ℚ))).flatten).zip
        ((((updates.map Prod.snd).flatten).map (transpose01 (0 : ℕ))).flatten)).Perm
      ((((preds.map (transpose01 (0 : ℚ))).flatten)).zip
        ((target.map (transpose01 (0 : ℕ))).flatten)) := by
    rw [eqL, eqR, zip_pairs_map_both, zip_pairs_map_both]
    exact (hzip.map _).flatten
  have htgFlat : ((((updates.map Prod.snd).flatten).map (transpose01 (0 : ℕ))).flatten).Perm
      ((target.map (transpose01 (0 : ℕ))).flatten) :=
    (htg.map _).flatten
  unfold classAUROC_multilabel_multidim auroc_multilabel_multidim
  rw [multilabelAuc_perm C avg hzipFlat htgFlat]
  have := auroc_multilabel_multidim_eq_sk C D avg preds target hpne htne hD0 hpC hpD htC htD
  unfold auroc_multilabel_multidim at this
  exact this

/-! ### Mode checking on `update`

Modelled from the spec: the class-based `AUROC` infers a data mode (binary,
multi-class, multi-label) from the shapes of each `update`'s inputs and, per
the docstring of `test_error_on_different_mode`, raises a `ValueError`
matching `The mode of data.* should be constant.*` when a later update's
mode differs from the first one's. -/

/-- The data modes distinguished by the metric's input formatting. -/
inductive DataMode : Type where
  | binary : DataMode
  | multiclass : DataMode
  | multilabel : DataMode
deriving DecidableEq

/-- Modelled from the spec: mode inference from the dimensionalities of the
update's `preds` and `target` tensors (1-D preds + 1-D target: binary;
2-D preds + 1-D target: multiclass; 2-D preds + 2-D target: multilabel). -/
def inferMode (predsDims targetDims : List ℕ) : Option DataMode :=
  match predsDims, targetDims with
  | [_], [_] => some DataMode.binary
  | [_, _], [_] => some DataMode.multiclass
  | [_, _], [_, _] => some DataMode.multilabel
  | _, _ => none

/-- The mode-tracking part of the class metric's state. -/
structure AUROCState : Type where
  mode : Option DataMode
deriving DecidableEq

/-- A freshly constructed `AUROC()` has seen no data. -/
def AUROCinit : AUROCState := ⟨none⟩

/-- The `ValueError` message raised on a mode change; it matches the
regular expression `The mode of data.* should be constant.*` the test
expects. -/
def modeErrorMsg : String :=
  "The mode of data (binary, multi-label, multi-class) should be constant. Got changed between batches!"

/-- Modelled from the spec: `AUROC.update` records the mode of the first
update and raises on any update whose mode differs. -/
def AUROCupdate (st : AUROCState) (predsDims targetDims : List ℕ) :
    Except String AUROCState :=
  match inferMode predsDims targetDims with
  | none => Except.error "unsupported input shapes"
  | some m =>
    match st.mode with
    | none => Except.ok ⟨some m⟩
    | some m0 => if m0 = m then Except.ok st else Except.error modeErrorMsg

/-! ### Test parametrization: skip conditions of `TestAUROC` -/

/-- Embeds the two skip checks of `TestAUROC.test_auroc`
(test_auroc.py lines 108–115): skip when `max_fpr` is set and
`num_classes != 1`, or when `max_fpr` is set and torch is older
than 1.6.0 (the version comparison is a boolean parameter). -/
def test_auroc_skips (maxFpr : Option ℚ) (numClasses : ℕ) (torchLt160 : Bool) : Bool :=
  if maxFpr.isSome && !(numClasses == 1) then true
  else if maxFpr.isSome && torchLt160 then true
  else false

/-- Embeds the (identical) skip checks of `TestAUROC.test_auroc_functional`
(lines 129–136). -/
def test_auroc_functional_skips (maxFpr : Option ℚ) (numClasses : ℕ)
    (torchLt160 : Bool) : Bool :=
  if maxFpr.isSome && !(numClasses == 1) then true
  else if maxFpr.isSome && torchLt160 then true
  else false

end PLAuroc

namespace PLFinetune

/-! ## The transfer-learning example
(`pl_examples/domain_templates/computer_vision_fine_tuning.py`)

A module is a list of child layers; each layer carries whether it is a
BatchNorm layer and whether its parameters require gradients.  The
`BaseFinetuningCallback` helpers (`freeze`, `unfreeze_and_add_param_group`)
come from the framework and are not part of this snapshot; they are
modelled from the spec. -/

/-- A child layer of a module: a BatchNorm flag and the `requires_grad`
state of its parameters. -/
structure Layer : Type where
  isBN : Bool
  requiresGrad : Bool
deriving DecidableEq

/-- Modelled from the spec: `BaseFinetuningCallback.freeze(module, train_bn)`
sets `requires_grad = False` on every child layer, leaving BatchNorm layers
untouched (trainable) when `train_bn` is true. -/
def freezeLayers (train_bn : Bool) (layers : List Layer) : List Layer :=
  layers.map (fun l => if l.isBN && train_bn then l else { l with requiresGrad := false })

/-- Modelled from the spec: making a module trainable sets
`requires_grad = True` on every child layer, leaving BatchNorm layers
untouched when `train_bn` is false. -/
def unfreezeLayers (train_bn : Bool) (layers : List Layer) : List Layer :=
  layers.map (fun l => if l.isBN && !train_bn then l else { l with requiresGrad := true })

/-- An optimizer is its list of parameter groups (each a list of layers
whose parameters belong to the group). -/
structure Optimizer : Type where
  paramGroups : List (List Layer)
deriving DecidableEq

/-- Modelled from the spec:
`BaseFinetuningCallback.unfreeze_and_add_param_group(module, optimizer,
train_bn)` makes the module trainable (honouring `train_bn`) and appends its
trainable parameters to the optimizer as a new parameter group. -/
def unfreeze_and_add_param_group (module' : List Layer) (optimizer : Optimizer)
    (train_bn : Bool) : List Layer × Optimizer :=
  let m' := unfreezeLayers train_bn module'
  (m', ⟨optimizer.paramGroups ++ [m'.filter (fun l => l.requiresGrad)]⟩)

/-- The model of `TransferLearningModel`: its two submodules and the
hyper-parameters its `__init__` stores. -/
structure TransferLearningModel : Type where
  feature_extractor : List Layer
  fc : List Layer
  backbone : String
  train_bn : Bool
  milestones : List ℕ
  batch_size : ℕ
  lr : ℚ
  lr_scheduler_gamma : ℚ
  num_workers : ℕ
deriving DecidableEq

/-- The `MilestonesFinetuningCallback`: milestones and `train_bn`
(computer_vision_fine_tuning.py lines 66–72). -/
structure MilestonesFinetuningCallback : Type where
  milestones : List ℕ
  train_bn : Bool
deriving DecidableEq

/-- Embeds `MilestonesFinetuningCallback.freeze_before_training`
(lines 74–75): freeze the feature extractor, honouring `train_bn`; nothing
else is touched. -/
def freeze_before_training (cb : MilestonesFinetuningCallback)
    (pl_module : TransferLearningModel) : TransferLearningModel :=
  { pl_module with
    feature_extractor := freezeLayers cb.train_bn pl_module.feature_extractor }

/-- Embeds `MilestonesFinetuningCallback.finetunning_function`
(lines 77–92): at `milestones[0]` unfreeze the last 5 child layers of the
feature extractor (`feature_extractor[-5:]`, i.e. `drop (length - 5)`) and
add them to the optimizer; at `milestones[1]` unfreeze the remaining layers
(`feature_extractor[:-5]`, i.e. `take (length - 5)`). -/
def finetunning_function (cb : MilestonesFinetuningCallback)
    (pl_module : TransferLearningModel) (epoch : ℕ) (optimizer : Optimizer) :
    TransferLearningModel × Optimizer :=
  if epoch = cb.milestones.getD 0 0 then
    let fe := pl_module.feature_extractor
    let r := unfreeze_and_add_param_group (fe.drop (fe.length - 5)) optimizer cb.train_bn
    ({ pl_module with feature_extractor := fe.take (fe.length - 5) ++ r.1 }, r.2)
  else if epoch = cb.milestones.getD 1 0 then
    let fe := pl_module.feature_extractor
    let r := unfreeze_and_add_param_group (fe.take (fe.length - 5)) optimizer cb.train_bn
    ({ pl_module with feature_extractor := r.1 ++ fe.drop (fe.length - 5) }, r.2)
  else (pl_module, optimizer)

/-- The parameters of the model, in module order (feature extractor, then
classifier head). -/
def TransferLearningModel.parameters (m : TransferLearningModel) : List Layer :=
  m.feature_extractor ++ m.fc

/-- The data of the `optim.Adam(...)` call in `configure_optimizers`. -/
structure AdamSpec : Type where
  params : List Layer
  lr : ℚ
deriving DecidableEq

/-- The data of the `MultiStepLR(...)` call in `configure_optimizers`. -/
structure MultiStepLRSpec : Type where
  optimizer : AdamSpec
  milestones : List ℕ
  gamma : ℚ
deriving DecidableEq

/-- Embeds `TransferLearningModel.configure_optimizers` (lines 202–207):
one Adam over the parameters with `requires_grad`, with learning rate
`self.lr`, and one MultiStepLR over that optimizer with `self.milestones`
and `self.lr_scheduler_gamma`. -/
def configure_optimizers (m : TransferLearningModel) :
    List AdamSpec × List MultiStepLRSpec :=
  let optimizer : AdamSpec :=
    ⟨m.parameters.filter (fun p => p.requiresGrad), m.lr⟩
  let scheduler : MultiStepLRSpec :=
    ⟨optimizer, m.milestones, m.lr_scheduler_gamma⟩
  ([optimizer], [scheduler])

/-! ### Forward pass and loss (exact real semantics)

Feature extractor and classifier come from external libraries
(`torchvision.models`, `torch.nn`) and are left as parameters; the sigmoid
and the loss are modelled exactly over `ℝ`. -/

/-- The function `torch.nn.functional.sigmoid`. -/
noncomputable def sigmoid (x : ℝ) : ℝ := 1 / (1 + Real.exp (-x))

/-- Elementwise `F.binary_cross_entropy_with_logits`: internally applies a
sigmoid to its `input` argument. -/
noncomputable def binary_cross_entropy_with_logits (input target : ℝ) : ℝ :=
  -(target * Real.log (sigmoid input) + (1 - target) * Real.log (1 - sigmoid input))

/-- Embeds `TransferLearningModel.forward` (lines 161–171): feature
extraction, squeeze of the trailing singleton dimensions (the identity on
the flat feature list), the classifier, then `F.sigmoid` elementwise. -/
noncomputable def forward (feature_extractor fc : List ℝ → List ℝ) (x : List ℝ) : List ℝ :=
  (fc (feature_extractor x)).map sigmoid

/-- Embeds the loss computation of `training_step` (lines 176–183) and
`validation_step` elementwise: `y_logits = self.forward(x)` is passed as the
`input` of `binary_cross_entropy_with_logits`. -/
noncomputable def training_step_losses (feature_extractor fc : List ℝ → List ℝ)
    (x yTrue : List ℝ) : List ℝ :=
  List.zipWith binary_cross_entropy_with_logits (forward feature_extractor fc x) yTrue

/-! ### Command-line arguments -/

/-- The argparse namespace built by `get_args`. -/
structure Args : Type where
  root_data_path : String
  backbone : String
  nb_epochs : ℕ
  batch_size : ℕ
  gpus : ℕ
  lr : ℚ
  lr_scheduler_gamma : ℚ
  num_workers : ℕ
  train_bn : Bool
  milestones : List ℕ
deriving DecidableEq

/-- Embeds the argparse defaults of `add_model_specific_args`
(lines 261–301) and `get_args` (lines 332–343).  `root_data_path` defaults
to the current working directory, which is environment dependent and
modelled as the empty string. -/
def defaultArgs : Args :=
  { root_data_path := ""
    backbone := "resnet50"
    nb_epochs := 15
    batch_size := 8
    gpus := 1
    lr := 1/1000
    lr_scheduler_gamma := 1/10
    num_workers := 6
    train_bn := true
    milestones := [2, 4] }

/-- The defaults of `TransferLearningModel.__init__` (lines 108–119),
which `main`'s `**vars(args)` overrides. -/
def ctorDefaultModel (feature_extractor fc : List PLFinetune.Layer) :
    TransferLearningModel :=
  { feature_extractor := feature_extractor
    fc := fc
    backbone := "resnet50"
    train_bn := true
    milestones := [5, 10]
    batch_size := 32
    lr := 1/100
    lr_scheduler_gamma := 1/10
    num_workers := 6 }

/-- The milestones default of `MilestonesFinetuningCallback.__init__`
(lines 68–72). -/
def ctorDefaultCallback : MilestonesFinetuningCallback :=
  { milestones := [5, 10], train_bn := true }

/-- Embeds the model construction of `main` (line 317):
`TransferLearningModel(dl_path=tmp_dir, **vars(args))` — every
hyper-parameter is taken from the argparse namespace, overriding the
constructor defaults.  The submodules come from the external backbone. -/
def mainModel (args : Args) (feature_extractor fc : List Layer) :
    TransferLearningModel :=
  { feature_extractor := feature_extractor
    fc := fc
    backbone := args.backbone
    train_bn := args.train_bn
    milestones := args.milestones
    batch_size := args.batch_size
    lr := args.lr
    lr_scheduler_gamma := args.lr_scheduler_gamma
    num_workers := args.num_workers }

/-- Embeds the callback construction of `main` (line 318):
`MilestonesFinetuningCallback(milestones=args.milestones)`; `train_bn`
keeps its constructor default `True`. -/
def mainCallback (args : Args) : MilestonesFinetuningCallback :=
  { milestones := args.milestones, train_bn := true }

end PLFinetune

/-! ## Claims -/

open PLAuroc PLFinetune in
/-- C3: for every AUROC metric instance whose first update received data of
one mode, a subsequent update with data of a different mode raises a
`ValueError` whose message matches `The mode of data.* should be
constant.*` (the first update succeeds and records the mode; the second
errors with `modeErrorMsg`, which matches that pattern). -/
theorem claim_C3_update_mode_change_errors
    (pd td pd' td' : List ℕ) (m m' : PLAuroc.DataMode)
    (h1 : PLAuroc.inferMode pd td = some m)
    (h2 : PLAuroc.inferMode pd' td' = some m')
    (hne : m ≠ m') :
    PLAuroc.AUROCupdate PLAuroc.AUROCinit pd td = Except.ok ⟨some m⟩ ∧
    PLAuroc.AUROCupdate ⟨some m⟩ pd' td' = Except.error PLAuroc.modeErrorMsg := by
  constructor
  · unfold PLAuroc.AUROCupdate PLAuroc.AUROCinit
    rw [h1]
  · unfold PLAuroc.AUROCupdate
    rw [h2]
    exact if_neg hne

/-- Witness for C3 at the shapes of `test_error_on_different_mode`:
first a multiclass update (2-D preds `(10, 5)`, 1-D target `(10,)`), then a
multilabel update (2-D preds `(10, 5)`, 2-D target `(10, 5)`). -/
theorem claim_C3_witness :
    PLAuroc.AUROCupdate PLAuroc.AUROCinit [10, 5] [10]
      = Except.ok ⟨some PLAuroc.DataMode.multiclass⟩ ∧
    PLAuroc.AUROCupdate ⟨some PLAuroc.DataMode.multiclass⟩ [10, 5] [10, 5]
      = Except.error PLAuroc.modeErrorMsg :=
  claim_C3_update_mode_change_errors [10, 5] [10] [10, 5] [10, 5]
    PLAuroc.DataMode.multiclass PLAuroc.DataMode.multilabel rfl rfl (by decide)

/-- C6: both `test_auroc` and `test_auroc_functional` skip exactly when
`max_fpr` is not `None` and `num_classes` differs from 1, or when `max_fpr`
is not `None` and the installed torch version is below 1.6.0; in every other
parametrization they run the comparison. -/
theorem claim_C6_test_skip_condition (maxFpr : Option ℚ) (numClasses : ℕ)
    (torchLt160 : Bool) :
    (PLAuroc.test_auroc_skips maxFpr numClasses torchLt160 = true
      ↔ (maxFpr ≠ none ∧ numClasses ≠ 1) ∨ (maxFpr ≠ none ∧ torchLt160 = true)) ∧
    (PLAuroc.test_auroc_functional_skips maxFpr numClasses torchLt160 = true
      ↔ (maxFpr ≠ none ∧ numClasses ≠ 1) ∨ (maxFpr ≠ none ∧ torchLt160 = true)) := by
  cases maxFpr <;> by_cases h : numClasses = 1 <;> cases torchLt160 <;>
    simp [PLAuroc.test_auroc_skips, PLAuroc.test_auroc_functional_skips, h]

/-- C7: for every epoch not equal to `milestones[0]` and not equal to
`milestones[1]`, `finetunning_function` leaves the optimizer's parameter
groups and the module's `requires_grad` flags (indeed the whole module and
optimizer) unchanged. -/
theorem claim_C7_finetunning_function_frame
    (cb : PLFinetune.MilestonesFinetuningCallback)
    (pl_module : PLFinetune.TransferLearningModel)
    (optimizer : PLFinetune.Optimizer) (epoch : ℕ)
    (h0 : epoch ≠ cb.milestones.getD 0 0) (h1 : epoch ≠ cb.milestones.getD 1 0) :
    PLFinetune.finetunning_function cb pl_module epoch optimizer
      = (pl_module, optimizer) := by
  unfold PLFinetune.finetunning_function
  rw [if_neg h0, if_neg h1]

/-- Witness for C7: epoch 3 with milestones `(5, 10)` changes nothing. -/
theorem claim_C7_witness :
    PLFinetune.finetunning_function ⟨[5, 10], true⟩
      ⟨[⟨false, false⟩], [⟨false, true⟩], "resnet50", true, [5, 10], 8, 1/100, 1/10, 6⟩
      3 ⟨[[⟨false, true⟩]]⟩
      = (⟨[⟨false, false⟩], [⟨false, true⟩], "resnet50", true, [5, 10], 8, 1/100, 1/10, 6⟩,
         ⟨[[⟨false, true⟩]]⟩) :=
  claim_C7_finetunning_function_frame _ _ _ 3 (by decide) (by decide)

/-- C8: `configure_optimizers` returns exactly one optimizer and one
scheduler: an Adam whose parameter set is exactly the model parameters with
`requires_grad = True`, at learning rate `self.lr`, and a MultiStepLR over
that optimizer with `self.milestones` and `self.lr_scheduler_gamma`. -/
theorem claim_C8_configure_optimizers_spec (m : PLFinetune.TransferLearningModel) :
    (PLFinetune.configure_optimizers m).1.length = 1 ∧
    (PLFinetune.configure_optimizers m).2.length = 1 ∧
    ((PLFinetune.configure_optimizers m).1.getD 0 ⟨[], 0⟩).lr = m.lr ∧
    (∀ p : PLFinetune.Layer,
      p ∈ ((PLFinetune.configure_optimizers m).1.getD 0 ⟨[], 0⟩).params
        ↔ p ∈ m.parameters ∧ p.requiresGrad = true) ∧
    ((PLFinetune.configure_optimizers m).2.getD 0 ⟨⟨[], 0⟩, [], 0⟩).optimizer
      = (PLFinetune.configure_optimizers m).1.getD 0 ⟨[], 0⟩ ∧
    ((PLFinetune.configure_optimizers m).2.getD 0 ⟨⟨[], 0⟩, [], 0⟩).milestones
      = m.milestones ∧
    ((PLFinetune.configure_optimizers m).2.getD 0 ⟨⟨[], 0⟩, [], 0⟩).gamma
      = m.lr_scheduler_gamma := by
  refine ⟨rfl, rfl, rfl, ?_, rfl, rfl, rfl⟩
  intro p
  simp [PLFinetune.configure_optimizers, List.mem_filter]

/-- C9: `freeze_before_training` freezes the feature extractor (every child
layer, BatchNorm layers exempted when `train_bn` is true) and touches no
other submodule: the classifier head `fc` is unchanged. -/
theorem claim_C9_freeze_before_training_spec
    (cb : PLFinetune.MilestonesFinetuningCallback)
    (m : PLFinetune.TransferLearningModel) :
    (PLFinetune.freeze_before_training cb m).fc = m.fc ∧
    (PLFinetune.freeze_before_training cb m).feature_extractor
      = PLFinetune.freezeLayers cb.train_bn m.feature_extractor ∧
    (∀ l ∈ (PLFinetune.freeze_before_training cb m).feature_extractor,
      (l.isBN && cb.train_bn) = false → l.requiresGrad = false) ∧
    (cb.train_bn = true → ∀ l ∈ m.feature_extractor, l.isBN = true →
      l ∈ (PLFinetune.freeze_before_training cb m).feature_extractor) := by
  refine ⟨rfl, rfl, ?_, ?_⟩
  · intro l hl hcond
    unfold PLFinetune.freeze_before_training PLFinetune.freezeLayers at hl
    obtain ⟨l0, _, hl0⟩ := List.mem_map.mp hl
    by_cases hbn : (l0.isBN && cb.train_bn) = true
    · rw [if_pos hbn] at hl0
      subst hl0
      rw [hcond] at hbn
      cases hbn
    · rw [if_neg hbn] at hl0
      subst hl0
      rfl
  · intro htb l hl hbn
    unfold PLFinetune.freeze_before_training PLFinetune.freezeLayers
    have : (if l.isBN && cb.train_bn then l else { l with requiresGrad := false }) = l := by
      rw [if_pos (by rw [hbn, htb]; rfl)]
    rw [← this]
    exact List.mem_map_of_mem _ hl

/-- Witness for C9: a one-layer (non-BatchNorm) feature extractor is frozen
while the classifier head stays as it was. -/
theorem claim_C9_witness :
    (PLFinetune.freeze_before_training ⟨[5, 10], true⟩
      ⟨[⟨false, true⟩], [⟨false, true⟩], "resnet50", true, [5, 10], 8, 1/100, 1/10, 6⟩).fc
      = [⟨false, true⟩] ∧
    (⟨false, false⟩ : PLFinetune.Layer).requiresGrad = false :=
  ⟨(claim_C9_freeze_before_training_spec ⟨[5, 10], true⟩
      ⟨[⟨false, true⟩], [⟨false, true⟩], "resnet50", true, [5, 10], 8, 1/100, 1/10, 6⟩).1,
   (claim_C9_freeze_before_training_spec ⟨[5, 10], true⟩
      ⟨[⟨false, true⟩], [⟨false, true⟩], "resnet50", true, [5, 10], 8, 1/100, 1/10, 6⟩).2.2.1
    ⟨false, false⟩ (by decide) (by decide)⟩

/-- C10: running `main` with the default command-line arguments uses
milestones `[2, 4]` (the argparse default) for both the callback and the
model — not the `(5, 10)` constructor defaults — and likewise argparse's
`lr = 1e-3` and `batch_size = 8` override the constructor defaults
`1e-2` and `32`; the MultiStepLR scheduler then receives `[2, 4]`. -/
theorem claim_C10_argparse_defaults_override
    (fe fc : List PLFinetune.Layer) :
    (PLFinetune.mainModel PLFinetune.defaultArgs fe fc).milestones = [2, 4] ∧
    (PLFinetune.mainCallback PLFinetune.defaultArgs).milestones = [2, 4] ∧
    ((PLFinetune.configure_optimizers
        (PLFinetune.mainModel PLFinetune.defaultArgs fe fc)).2.getD 0
          ⟨⟨[], 0⟩, [], 0⟩).milestones = [2, 4] ∧
    (PLFinetune.mainModel PLFinetune.defaultArgs fe fc).lr = 1/1000 ∧
    (PLFinetune.mainModel PLFinetune.defaultArgs fe fc).batch_size = 8 ∧
    (PLFinetune.ctorDefaultModel fe fc).milestones = [5, 10] ∧
    PLFinetune.ctorDefaultCallback.milestones = [5, 10] ∧
    (PLFinetune.mainModel PLFinetune.defaultArgs fe fc).milestones
      ≠ (PLFinetune.ctorDefaultModel fe fc).milestones ∧
    (PLFinetune.mainModel PLFinetune.defaultArgs fe fc).lr
      ≠ (PLFinetune.ctorDefaultModel fe fc).lr ∧
    (PLFinetune.mainModel PLFinetune.defaultArgs fe fc).batch_size
      ≠ (PLFinetune.ctorDefaultModel fe fc).batch_size := by
  refine ⟨rfl, rfl, rfl, rfl, rfl, rfl, rfl, ?_, ?_, ?_⟩
  · show ([2, 4] : List ℕ) ≠ [5, 10]
    decide
  · show (1/1000 : ℚ) ≠ 1/100
    norm_num
  · show (8 : ℕ) ≠ 32
    decide

/-- C4: `finetunning_function` unfreezes the last 5 child layers of the
feature extractor and adds them to the optimizer as a new parameter group at
epoch `milestones[0]`, unfreezes the remaining (all but the last 5) layers
and adds them as a new parameter group at epoch `milestones[1]`, in both
cases honouring `train_bn` (BatchNorm layers are left untouched by the
unfreezing when `train_bn` is false, as the last conjunct makes explicit). -/
theorem claim_C4_finetunning_function_milestones
    (cb : PLFinetune.MilestonesFinetuningCallback)
    (pl : PLFinetune.TransferLearningModel) (opt : PLFinetune.Optimizer)
    (hne : cb.milestones.getD 0 0 ≠ cb.milestones.getD 1 0) :
    ((PLFinetune.finetunning_function cb pl (cb.milestones.getD 0 0) opt).1.feature_extractor
        = pl.feature_extractor.take (pl.feature_extractor.length - 5)
          ++ PLFinetune.unfreezeLayers cb.train_bn
              (pl.feature_extractor.drop (pl.feature_extractor.length - 5)) ∧
      (PLFinetune.finetunning_function cb pl (cb.milestones.getD 0 0) opt).2.paramGroups
        = opt.paramGroups
          ++ [(PLFinetune.unfreezeLayers cb.train_bn
                (pl.feature_extractor.drop (pl.feature_extractor.length - 5))).filter
              (fun l => l.requiresGrad)]) ∧
    ((PLFinetune.finetunning_function cb pl (cb.milestones.getD 1 0) opt).1.feature_extractor
        = PLFinetune.unfreezeLayers cb.train_bn
            (pl.feature_extractor.take (pl.feature_extractor.length - 5))
          ++ pl.feature_extractor.drop (pl.feature_extractor.length - 5) ∧
      (PLFinetune.finetunning_function cb pl (cb.milestones.getD 1 0) opt).2.paramGroups
        = opt.paramGroups
          ++ [(PLFinetune.unfreezeLayers cb.train_bn
                (pl.feature_extractor.take (pl.feature_extractor.length - 5))).filter
              (fun l => l.requiresGrad)]) ∧
    (∀ (tb : Bool) (ls : List PLFinetune.Layer),
      ∀ l ∈ PLFinetune.unfreezeLayers tb ls,
        (l.isBN && !tb) = false → l.requiresGrad = true) := by
  refine ⟨?_, ?_, ?_⟩
  · unfold PLFinetune.finetunning_function
    rw [if_pos rfl]
    exact ⟨rfl, rfl⟩
  · unfold PLFinetune.finetunning_function
    rw [if_neg (Ne.symm hne), if_pos rfl]
    exact ⟨rfl, rfl⟩
  · intro tb ls l hl hcond
    unfold PLFinetune.unfreezeLayers at hl
    obtain ⟨l0, _, hl0⟩ := List.mem_map.mp hl
    by_cases hbn : (l0.isBN && !tb) = true
    · rw [if_pos hbn] at hl0
      subst hl0
      rw [hcond] at hbn
      cases hbn
    · rw [if_neg hbn] at hl0
      subst hl0
      rfl

/-- Witness for C4 with milestones `(5, 10)` at epoch 5: the last-5 slice of
a 6-layer extractor is unfrozen in place, and an unfrozen non-BatchNorm
layer indeed has `requires_grad = True`. -/
theorem claim_C4_witness :
    ((PLFinetune.finetunning_function ⟨[5, 10], true⟩
        ⟨[⟨false, false⟩, ⟨true, false⟩, ⟨false, false⟩, ⟨false, false⟩,
          ⟨true, false⟩, ⟨false, false⟩], [⟨false, true⟩], "resnet50", true,
          [5, 10], 8, 1/100, 1/10, 6⟩ 5 ⟨[]⟩).1.feature_extractor
      = ([⟨false, false⟩, ⟨true, false⟩, ⟨false, false⟩, ⟨false, false⟩,
          ⟨true, false⟩, ⟨false, false⟩] : List PLFinetune.Layer).take 1
        ++ PLFinetune.unfreezeLayers true
            (([⟨false, false⟩, ⟨true, false⟩, ⟨false, false⟩, ⟨false, false⟩,
              ⟨true, false⟩, ⟨false, false⟩] : List PLFinetune.Layer).drop 1)) ∧
    (⟨false, true⟩ : PLFinetune.Layer).requiresGrad = true :=
  ⟨(claim_C4_finetunning_function_milestones ⟨[5, 10], true⟩
      ⟨[⟨false, false⟩, ⟨true, false⟩, ⟨false, false⟩, ⟨false, false⟩,
        ⟨true, false⟩, ⟨false, false⟩], [⟨false, true⟩], "resnet50", true,
        [5, 10], 8, 1/100, 1/10, 6⟩ ⟨[]⟩ (by decide)).1.1,
   (claim_C4_finetunning_function_milestones ⟨[5, 10], true⟩
      ⟨[⟨false, false⟩, ⟨true, false⟩, ⟨false, false⟩, ⟨false, false⟩,
        ⟨true, false⟩, ⟨false, false⟩], [⟨false, true⟩], "resnet50", true,
        [5, 10], 8, 1/100, 1/10, 6⟩ ⟨[]⟩ (by decide)).2.2
    true [⟨false, false⟩] ⟨false, true⟩ (by decide) (by decide)⟩

/-- C5: `forward` returns `F.sigmoid` of the classifier output, so every
component of the result lies strictly between 0 and 1; the loss of
`training_step` passes that sigmoid output as the `input` of
`binary_cross_entropy_with_logits`, whose internal probability is then a
sigmoid of a sigmoid of the raw classifier score. -/
theorem claim_C5_forward_double_sigmoid
    (feature_extractor fc : List ℝ → List ℝ) (x : List ℝ) :
    (∀ y ∈ PLFinetune.forward feature_extractor fc x, 0 < y ∧ y < 1) ∧
    (∀ yTrue : List ℝ,
      PLFinetune.training_step_losses feature_extractor fc x yTrue
        = List.zipWith
            (fun z t => -(t * Real.log (PLFinetune.sigmoid (PLFinetune.sigmoid z))
              + (1 - t) * Real.log (1 - PLFinetune.sigmoid (PLFinetune.sigmoid z))))
            (fc (feature_extractor x)) yTrue) := by
  constructor
  · intro y hy
    obtain ⟨z, _, rfl⟩ := List.mem_map.mp hy
    unfold PLFinetune.sigmoid
    have hexp : 0 < Real.exp (-z) := Real.exp_pos (-z)
    constructor
    · positivity
    · rw [div_lt_one (by positivity)]
      linarith
  · intro yTrue
    unfold PLFinetune.training_step_losses PLFinetune.forward
    rw [List.zipWith_map_left]
    rfl

/-- Witness for C5: the sigmoid of the raw score 0 is strictly between 0
and 1 (it is `1/2`). -/
theorem claim_C5_witness :
    0 < PLFinetune.sigmoid 0 ∧ PLFinetune.sigmoid 0 < 1 :=
  (claim_C5_forward_double_sigmoid id id [0]).1 (PLFinetune.sigmoid 0)
    (by simp [PLFinetune.forward])

/-- C2: for every parametrized input family (binary, multiclass, multidim
multiclass, multilabel, multilabel multidim probabilities), every average in
{'macro', 'weighted'} and every `max_fpr` for which the test is not skipped
(`max_fpr` is only exercised in the binary family), the functional `auroc`
metric produces the same value as the corresponding sklearn `roc_auc_score`
reference adapter applied to the same `preds` and `target`.  The
rectangularity hypotheses state that the inputs are well-formed tensors of
the family's shape. -/
theorem claim_C2_functional_auroc_matches_sklearn (avg : PLAuroc.Average) :
    (∀ (maxFpr : Option ℚ) (preds : List ℚ) (target : List ℕ),
      PLAuroc.auroc_binary maxFpr preds target
        = PLAuroc.binary_prob_sk_metric preds target avg maxFpr) ∧
    (∀ (C : ℕ) (preds : List (List ℚ)) (target : List ℕ),
      0 < C → (∀ r ∈ preds, r.length = C) →
      PLAuroc.auroc_multiclass C avg preds target
        = PLAuroc.multiclass_prob_sk_metric preds target C avg) ∧
    (∀ (C D : ℕ) (preds : List (List (List ℚ))) (target : List (List ℕ)),
      preds ≠ [] → 0 < D →
      (∀ s ∈ preds, s.length = C) → (∀ s ∈ preds, ∀ r ∈ s, r.length = D) →
      PLAuroc.auroc_multidim_multiclass C avg preds target
        = PLAuroc.multidim_multiclass_prob_sk_metric preds target C avg) ∧
    (∀ (C : ℕ) (preds : List (List ℚ)) (target : List (List ℕ)),
      0 < C → (∀ r ∈ preds, r.length = C) → (∀ r ∈ target, r.length = C) →
      PLAuroc.auroc_multilabel C avg preds target
        = PLAuroc.multilabel_prob_sk_metric preds target C avg) ∧
    (∀ (C D : ℕ) (preds : List (List (List ℚ))) (target : List (List (List ℕ))),
      preds ≠ [] → target ≠ [] → 0 < D →
      (∀ s ∈ preds, s.length = C) → (∀ s ∈ preds, ∀ r ∈ s, r.length = D) →
      (∀ s ∈ target, s.length = C) → (∀ s ∈ target, ∀ r ∈ s, r.length = D) →
      PLAuroc.auroc_multilabel_multidim C avg preds target
        = PLAuroc.multilabel_multidim_prob_sk_metric preds target C avg) :=
  ⟨fun maxFpr preds target => PLAuroc.auroc_binary_eq_sk avg maxFpr preds target,
   fun C preds target hC hrect =>
     PLAuroc.auroc_multiclass_eq_sk C avg preds target hC hrect,
   fun C D preds target hne hD0 hC hD =>
     PLAuroc.auroc_multidim_multiclass_eq_sk C D avg preds target hne hD0 hC hD,
   fun C preds target hC hp ht =>
     PLAuroc.auroc_multilabel_eq_sk C avg preds target hC hp ht,
   fun C D preds target hpne htne hD0 hpC hpD htC htD =>
     PLAuroc.auroc_multilabel_multidim_eq_sk C D avg preds target
       hpne htne hD0 hpC hpD htC htD⟩

/-- Witness for C2: each family's equality at a small concrete input
(binary with `max_fpr = 0.5`, the others at `max_fpr = None`). -/
theorem claim_C2_witness :
    (PLAuroc.auroc_binary (some (1/2)) [1/2, 1/4] [1, 0]
      = PLAuroc.binary_prob_sk_metric [1/2, 1/4] [1, 0] PLAuroc.Average.macroAvg
          (some (1/2))) ∧
    (PLAuroc.auroc_multiclass 2 PLAuroc.Average.macroAvg [[1/2, 1/2]] [0]
      = PLAuroc.multiclass_prob_sk_metric [[1/2, 1/2]] [0] 2
          PLAuroc.Average.macroAvg) ∧
    (PLAuroc.auroc_multidim_multiclass 2 PLAuroc.Average.weighted
        [[[1, 0], [0, 1]]] [[0, 1]]
      = PLAuroc.multidim_multiclass_prob_sk_metric [[[1, 0], [0, 1]]] [[0, 1]] 2
          PLAuroc.Average.weighted) ∧
    (PLAuroc.auroc_multilabel 2 PLAuroc.Average.macroAvg [[1/2, 1/4]] [[1, 0]]
      = PLAuroc.multilabel_prob_sk_metric [[1/2, 1/4]] [[1, 0]] 2
          PLAuroc.Average.macroAvg) ∧
    (PLAuroc.auroc_multilabel_multidim 2 PLAuroc.Average.weighted
        [[[1, 0], [0, 1]]] [[[1, 0], [0, 1]]]
      = PLAuroc.multilabel_multidim_prob_sk_metric [[[1, 0], [0, 1]]]
          [[[1, 0], [0, 1]]] 2 PLAuroc.Average.weighted) :=
  ⟨(claim_C2_functional_auroc_matches_sklearn PLAuroc.Average.macroAvg).1
      (some (1/2)) [1/2, 1/4] [1, 0],
   (claim_C2_functional_auroc_matches_sklearn PLAuroc.Average.macroAvg).2.1
      2 [[1/2, 1/2]] [0] (by decide) (by decide),
   (claim_C2_functional_auroc_matches_sklearn PLAuroc.Average.weighted).2.2.1
      2 2 [[[1, 0], [0, 1]]] [[0, 1]] (by decide) (by decide) (by decide) (by decide),
   (claim_C2_functional_auroc_matches_sklearn PLAuroc.Average.macroAvg).2.2.2.1
      2 [[1/2, 1/4]] [[1, 0]] (by decide) (by decide) (by decide),
   (claim_C2_functional_auroc_matches_sklearn PLAuroc.Average.weighted).2.2.2.2
      2 2 [[[1, 0], [0, 1]]] [[[1, 0], [0, 1]]] (by decide) (by decide) (by decide)
      (by decide) (by decide) (by decide) (by decide)⟩

/-- C1: for every parametrized input family, every average in
{'macro', 'weighted'}, every `max_fpr` for which the test is not skipped
(only the binary family exercises `max_fpr`), and every combination of ddp
and `dist_sync_on_step`, the class-based AUROC metric — which accumulates
all updates and computes on the synced concatenation — produces the same
value as the sklearn reference adapter on the full `preds` and `target`.
Distributed gathering and batch splitting are captured by the hypothesis
that the accumulated samples are a permutation of the full data's samples
(`ddp=False` gives the identity permutation, `ddp=True` the interleaved
gather; `dist_sync_on_step` does not affect the final computed value). -/
theorem claim_C1_class_auroc_matches_sklearn (avg : PLAuroc.Average) :
    (∀ (maxFpr : Option ℚ) (updates : List (List ℚ × List ℕ))
        (preds : List ℚ) (target : List ℕ),
      (((updates.map Prod.fst).flatten).zip
          ((updates.map Prod.snd).flatten)).Perm (preds.zip target) →
      PLAuroc.classAUROC_binary maxFpr updates
        = PLAuroc.binary_prob_sk_metric preds target avg maxFpr) ∧
    (∀ (C : ℕ) (updates : List (List (List ℚ) × List ℕ))
        (preds : List (List ℚ)) (target : List ℕ),
      0 < C → (∀ r ∈ preds, r.length = C) →
      ((updates.map Prod.fst).flatten).length
        = ((updates.map Prod.snd).flatten).length →
      preds.length = target.length →
      (((updates.map Prod.fst).flatten).zip
          ((updates.map Prod.snd).flatten)).Perm (preds.zip target) →
      PLAuroc.classAUROC_multiclass C avg updates
        = PLAuroc.multiclass_prob_sk_metric preds target C avg) ∧
    (∀ (C D : ℕ) (updates : List (List (List (List ℚ)) × List (List ℕ)))
        (preds : List (List (List ℚ))) (target : List (List ℕ)),
      preds ≠ [] → 0 < C → 0 < D →
      (∀ s ∈ preds, s.length = C) → (∀ s ∈ preds, ∀ r ∈ s, r.length = D) →
      (∀ t ∈ target, t.length = D) →
      ((updates.map Prod.fst).flatten).length
        = ((updates.map Prod.snd).flatten).length →
      preds.length = target.length →
      (((updates.map Prod.fst).flatten).zip
          ((updates.map Prod.snd).flatten)).Perm (preds.zip target) →
      PLAuroc.classAUROC_multidim_multiclass C avg updates
        = PLAuroc.multidim_multiclass_prob_sk_metric preds target C avg) ∧
    (∀ (C : ℕ) (updates : List (List (List ℚ) × List (List ℕ)))
        (preds : List (List ℚ)) (target : List (List ℕ)),
      0 < C → (∀ r ∈ preds, r.length = C) → (∀ r ∈ target, r.length = C) →
      ((updates.map Prod.fst).flatten).length
        = ((updates.map Prod.snd).flatten).length →
      preds.length = target.length →
      (((updates.map Prod.fst).flatten).zip
          ((updates.map Prod.snd).flatten)).Perm (preds.zip target) →
      PLAuroc.classAUROC_multilabel C avg updates
        = PLAuroc.multilabel_prob_sk_metric preds target C avg) ∧
    (∀ (C D : ℕ)
        (updates : List (List (List (List ℚ)) × List (List (List ℕ))))
        (preds : List (List (List ℚ))) (target : List (List (List ℕ))),
      preds ≠ [] → target ≠ [] → 0 < C → 0 < D →
      (∀ s ∈ preds, s.length = C) → (∀ s ∈ preds, ∀ r ∈ s, r.length = D) →
      (∀ s ∈ target, s.length = C) → (∀ s ∈ target, ∀ r ∈ s, r.length = D) →
      ((updates.map Prod.fst).flatten).length
        = ((updates.map Prod.snd).flatten).length →
      preds.length = target.length →
      (((updates.map Prod.fst).flatten).zip
          ((updates.map Prod.snd).flatten)).Perm (preds.zip target) →
      PLAuroc.classAUROC_multilabel_multidim C avg updates
        = PLAuroc.multilabel_multidim_prob_sk_metric preds target C avg) :=
  ⟨fun maxFpr updates preds target h =>
     PLAuroc.classAUROC_binary_eq_sk avg maxFpr updates preds target h,
   fun C updates preds target hC hrect hlen1 hlen2 hzip =>
     PLAuroc.classAUROC_multiclass_eq_sk C avg updates preds target
       hC hrect hlen1 hlen2 hzip,
   fun C D updates preds target hne hC0 hD0 hC hD htD hlen1 hlen2 hzip =>
     PLAuroc.classAUROC_multidim_multiclass_eq_sk C D avg updates preds target
       hne hC0 hD0 hC hD htD hlen1 hlen2 hzip,
   fun C updates preds target hC hp ht hlen1 hlen2 hzip =>
     PLAuroc.classAUROC_multilabel_eq_sk C avg updates preds target
       hC hp ht hlen1 hlen2 hzip,
   fun C D updates preds target hpne htne hC0 hD0 hpC hpD htC htD hlen1 hlen2 hzip =>
     PLAuroc.classAUROC_multilabel_multidim_eq_sk C D avg updates preds target
       hpne htne hC0 hD0 hpC hpD htC htD hlen1 hlen2 hzip⟩

/-- Witness for C1: the binary and multiclass families with two single-sample
updates accumulated in gather (reversed) order, the other families with one
update in original order. -/
theorem claim_C1_witness :
    (PLAuroc.classAUROC_binary (some (1/2)) [([1/2], [1]), ([1/4], [0])]
      = PLAuroc.binary_prob_sk_metric [1/4, 1/2] [0, 1] PLAuroc.Average.macroAvg
          (some (1/2))) ∧
    (PLAuroc.classAUROC_multiclass 2 PLAuroc.Average.weighted
        [([[1, 0]], [0]), ([[0, 1]], [1])]
      = PLAuroc.multiclass_prob_sk_metric [[0, 1], [1, 0]] [1, 0] 2
          PLAuroc.Average.weighted) ∧
    (PLAuroc.classAUROC_multidim_multiclass 2 PLAuroc.Average.macroAvg
        [([[[1], [0]]], [[0]])]
      = PLAuroc.multidim_multiclass_prob_sk_metric [[[1], [0]]] [[0]] 2
          PLAuroc.Average.macroAvg) ∧
    (PLAuroc.classAUROC_multilabel 2 PLAuroc.Average.macroAvg
        [([[1, 0]], [[1, 0]])]
      = PLAuroc.multilabel_prob_sk_metric [[1, 0]] [[1, 0]] 2
          PLAuroc.Average.macroAvg) ∧
    (PLAuroc.classAUROC_multilabel_multidim 2 PLAuroc.Average.weighted
        [([[[1], [0]]], [[[1], [0]]])]
      = PLAuroc.multilabel_multidim_prob_sk_metric [[[1], [0]]] [[[1], [0]]] 2
          PLAuroc.Average.weighted) :=
  ⟨(claim_C1_class_auroc_matches_sklearn PLAuroc.Average.macroAvg).1
      (some (1/2)) [([1/2], [1]), ([1/4], [0])] [1/4, 1/2] [0, 1]
      (List.Perm.swap ((1/4 : ℚ), (0 : ℕ)) ((1/2 : ℚ), (1 : ℕ)) []),
   (claim_C1_class_auroc_matches_sklearn PLAuroc.Average.weighted).2.1
      2 [([[1, 0]], [0]), ([[0, 1]], [1])] [[0, 1], [1, 0]] [1, 0]
      (by decide) (by decide) (by decide) (by decide)
      (List.Perm.swap (([0, 1] : List ℚ), (1 : ℕ)) (([1, 0] : List ℚ), (0 : ℕ)) []),
   (claim_C1_class_auroc_matches_sklearn PLAuroc.Average.macroAvg).2.2.1
      2 1 [([[[1], [0]]], [[0]])] [[[1], [0]]] [[0]]
      (by decide) (by decide) (by decide) (by decide) (by decide) (by decide)
      (by decide) (by decide) (List.Perm.refl _),
   (claim_C1_class_auroc_matches_sklearn PLAuroc.Average.macroAvg).2.2.2.1
      2 [([[1, 0]], [[1, 0]])] [[1, 0]] [[1, 0]]
      (by decide) (by decide) (by decide) (by decide) (by decide)
      (List.Perm.refl _),
   (claim_C1_class_auroc_matches_sklearn PLAuroc.Average.weighted).2.2.2.2
      2 1 [([[[1], [0]]], [[[1], [0]]])] [[[1], [0]]] [[[1], [0]]]
      (by decide) (by decide) (by decide) (by decide) (by decide) (by decide)
      (by decide) (by decide) (by decide) (by decide) (List.Perm.refl _)⟩
